import Mathlib

set_option maxRecDepth 100000

/-!
Verification of the `string_hash` library (src/src/index.ts): a salted,
iterated KDF string hasher.  The TypeScript class `StringHasher` is embedded
shallowly:

* option objects become a structure of `Option` fields; the constructor's
  truthiness guards (`if (options.x) ...`) become tests against the falsy
  values (`0` for numbers, `""` for strings);
* JavaScript numbers are modelled as integers (`ℤ` for raw options); the
  constructor's real-number divisions `hashLength / 2` and
  `(hashLength / 3) * 2` are modelled over `ℚ`, which agrees with IEEE
  double arithmetic on all integer inputs of relevant magnitude;
* the external collaborators are explicit parameters: the KDF
  (`pbkdf2Sync`) is a function argument, the random salt an explicit byte
  list; Node's rejection of non-integer sizes in `randomBytes(saltLength/2)`
  and `pbkdf2Sync(..., buffLength/2, ...)` is modelled by returning `none`
  when the corresponding length is odd;
* `Buffer` values are lists of byte values (`List ℕ`, each `< 256`);
  `Buffer.prototype.toString("hex")` and `Buffer.from(str, "hex")` are
  modelled with Node's semantics (lower-case output; decoding stops at the
  first invalid pair and truncates);
* `crypto.timingSafeEqual` raises when the buffers differ in length; it is
  modelled as `Except`, as are the `StringHashError` throws of the
  constructor, `generate` and `validate`.
-/

namespace StringHash

/-! ### Hex codec (Node `Buffer` semantics) -/

/-- Lower-case hex digit for a value `0 ≤ n < 16`. -/
def hexDigitChar (n : ℕ) : Char :=
  if n < 10 then Char.ofNat (48 + n) else Char.ofNat (87 + n)

/-- The two lower-case hex characters of one byte. -/
def byteToHex (b : ℕ) : List Char :=
  [hexDigitChar (b / 16 % 16), hexDigitChar (b % 16)]

/-- `Buffer.prototype.toString("hex")` on a byte list, as a character list. -/
def bytesToHexList : List ℕ → List Char
  | [] => []
  | b :: rest => byteToHex b ++ bytesToHexList rest

/-- `Buffer.prototype.toString("hex")` on a byte list. -/
def bytesToHex (bs : List ℕ) : String :=
  String.mk (bytesToHexList bs)

/-- Value of one hex character; Node accepts both cases. -/
def hexVal (c : Char) : Option ℕ :=
  if 48 ≤ c.toNat ∧ c.toNat ≤ 57 then some (c.toNat - 48)
  else if 97 ≤ c.toNat ∧ c.toNat ≤ 102 then some (c.toNat - 87)
  else if 65 ≤ c.toNat ∧ c.toNat ≤ 70 then some (c.toNat - 55)
  else none

/-- `Buffer.from(str, "hex")`: decode pairs of hex characters, stopping (and
truncating) at the first invalid pair or odd trailing character. -/
def hexToBytesList : List Char → List ℕ
  | c1 :: c2 :: rest =>
    match hexVal c1, hexVal c2 with
    | some hi, some lo => (16 * hi + lo) :: hexToBytesList rest
    | _, _ => []
  | _ => []

/-- `Buffer.from(str, "hex")` on a string. -/
def hexToBytes (s : String) : List ℕ :=
  hexToBytesList s.toList

/-- A character of a lower-case hex rendering: `0`–`9` or `a`–`f`. -/
def isLowerHexDigit (c : Char) : Prop :=
  (48 ≤ c.toNat ∧ c.toNat ≤ 57) ∨ (97 ≤ c.toNat ∧ c.toNat ≤ 102)

instance (c : Char) : Decidable (isLowerHexDigit c) := by
  unfold isLowerHexDigit; infer_instance

/-! ### JavaScript string primitives -/

/-- `String.prototype.substring(start, end)`: both indices are clamped to
`[0, length]` and swapped when `start > end`.  (Indices are natural numbers
here; every call site passes non-negative values.) -/
def jsSubstring (s : String) (start stop : ℕ) : String :=
  let a := min start s.length
  let b := min stop s.length
  String.mk ((s.toList.drop (min a b)).take (max a b - min a b))

/-- One-argument `String.prototype.substring(start)`: up to the end. -/
def jsSubstringFrom (s : String) (start : ℕ) : String :=
  jsSubstring s start s.length

/-! ### `crypto.timingSafeEqual` -/

/-- `crypto.timingSafeEqual(a, b)`: throws when the lengths differ,
otherwise reports byte equality (the timing behaviour itself is outside the
functional model). -/
def timingSafeEqual (a b : List ℕ) : Except String Bool :=
  if a.length = b.length then .ok (a = b : Bool)
  else .error "Input buffers must have the same byte length"

/-! ### Options and the validated hasher -/

/-- `StringHashOptions`: every field optional.  `algorythm` is a string
union type in TypeScript; the restriction to the listed digests is
compile-time only (erased at runtime), so it is a plain `String` here. -/
structure StringHashOptions where
  signature : Option String := none
  algorythm : Option String := none
  saltLength : Option ℤ := none
  hashLength : Option ℤ := none
  iterations : Option ℤ := none

/-- The validated `StringHasher` state: its `readonly` fields after a
successful construction.  The numeric fields are positive integers then,
hence `ℕ`. -/
structure StringHasher where
  signature : String
  algorythm : String
  saltLength : ℕ
  hashLength : ℕ
  buffLength : ℕ
  iterations : ℕ
deriving DecidableEq

instance {α β : Type} [DecidableEq α] [DecidableEq β] :
    DecidableEq (Except α β) := fun a b =>
  match a, b with
  | .error x, .error y => decidable_of_iff (x = y) (by simp)
  | .ok x, .ok y => decidable_of_iff (x = y) (by simp)
  | .error _, .ok _ => isFalse (by simp)
  | .ok _, .error _ => isFalse (by simp)

/-- The field initializer values of the class (lines 131–136 of index.ts). -/
def defaultHasher : StringHasher :=
  { signature := "sha512"
    algorythm := "sha512"
    saltLength := 32
    hashLength := 128
    buffLength := 90
    iterations := 100000 }

/-- `if (options.signature) this.signature = options.signature.trim();` —
the initializer default survives when the field is absent or falsy (`""`). -/
def effSignature (o : StringHashOptions) : String :=
  match o.signature with
  | some s => if s ≠ "" then s.trim else defaultHasher.signature
  | none => defaultHasher.signature

/-- `if (options.algorythm) this.algorythm = options.algorythm;` -/
def effAlgorythm (o : StringHashOptions) : String :=
  match o.algorythm with
  | some a => if a ≠ "" then a else defaultHasher.algorythm
  | none => defaultHasher.algorythm

/-- `if (options.saltLength) this.saltLength = options.saltLength;` — the
falsy value of a number is `0`. -/
def effSaltLength (o : StringHashOptions) : ℤ :=
  match o.saltLength with
  | some v => if v ≠ 0 then v else (defaultHasher.saltLength : ℤ)
  | none => (defaultHasher.saltLength : ℤ)

/-- `if (options.hashLength) this.hashLength = options.hashLength;` -/
def effHashLength (o : StringHashOptions) : ℤ :=
  match o.hashLength with
  | some v => if v ≠ 0 then v else (defaultHasher.hashLength : ℤ)
  | none => (defaultHasher.hashLength : ℤ)

/-- `if (options.iterations) this.iterations = options.iterations;` -/
def effIterations (o : StringHashOptions) : ℤ :=
  match o.iterations with
  | some v => if v ≠ 0 then v else (defaultHasher.iterations : ℤ)
  | none => (defaultHasher.iterations : ℤ)

/-- The `StringHasher` constructor.  `none` is `new StringHasher()` with no
argument: the guard `if (!options) return;` keeps the field initializers
(including `buffLength = 90`).  Otherwise overrides are applied field by
field, the five validations run in source order (first failure throws that
`StringHashError` message), and `buffLength` is recomputed. -/
def mkStringHasher : Option StringHashOptions → Except String StringHasher
  | none => .ok defaultHasher
  | some o =>
    let signature := effSignature o
    let algorythm := effAlgorythm o
    let saltLength := effSaltLength o
    let hashLength := effHashLength o
    let iterations := effIterations o
    if saltLength ≤ 0 then
      .error "Salt length cannot be less than or equals zero."
    else if hashLength ≤ 0 then
      .error "Hash length cannot be less than or equals zero."
    else if iterations < 1000 then
      .error "Iterations count cannot be less than 1000."
    else if (hashLength : ℚ) / 2 < (saltLength : ℚ) then
      .error "Salt length cannot be less than half of hash length."
    else if (hashLength : ℚ) / 3 * 2 < (saltLength : ℚ) + (signature.length : ℚ) then
      .error "Salt length combined with signature length cannot be more than 2/3 of hash length."
    else
      .ok { signature := signature
            algorythm := algorythm
            saltLength := saltLength.toNat
            hashLength := hashLength.toNat
            buffLength := (hashLength - saltLength - (signature.length : ℤ)).toNat
            iterations := iterations.toNat }

/-! ### generate / validate -/

/-- The key-derivation function (`pbkdf2Sync`), treated as an opaque
deterministic function of password, salt, iteration count, digest algorithm
and requested output byte length. -/
abbrev Kdf := String → List ℕ → ℕ → String → ℕ → List ℕ

/-- The KDF contract: it returns exactly the requested number of bytes. -/
def GoodKdf (kdf : Kdf) : Prop :=
  ∀ v s i a n, (kdf v s i a n).length = n ∧ ∀ b ∈ kdf v s i a n, b < 256

/-- `generateHash(value, salt)`: `pbkdf2Sync(value, salt, iterations,
buffLength / 2, algorythm)`.  Node rejects a non-integer key length, and the
surrounding `try` rethrows as `StringHashError("Unable to generate hash.")`;
that failure is the `none` case. -/
def StringHasher.generateHash (cfg : StringHasher) (kdf : Kdf)
    (value : String) (salt : List ℕ) : Option (List ℕ) :=
  if cfg.buffLength % 2 = 0 then
    some (kdf value salt cfg.iterations cfg.algorythm (cfg.buffLength / 2))
  else none

/-- `generate(value)`: draw `saltLength / 2` random bytes (the `salt`
parameter stands for the bytes the random source returned; Node rejects a
non-integer size, hence the `none` case for odd `saltLength`), derive the
hash buffer, and return
``signature ++ Buffer.concat([hash, salt]).toString("hex")``. -/
def StringHasher.generate (cfg : StringHasher) (kdf : Kdf)
    (salt : List ℕ) (value : String) : Option String :=
  if cfg.saltLength % 2 = 0 then
    match cfg.generateHash kdf value salt with
    | some hash => some (cfg.signature ++ bytesToHex (hash ++ salt))
    | none => none
  else none

/-- `validate(value, hash)` (lines 188–200 of index.ts):
fast-reject on empty `value`, wrong length or signature mismatch; then split
at the fixed offsets, hex-decode both segments, re-derive from the decoded
salt and compare with `timingSafeEqual` (which throws on a length
mismatch — propagated here as `.error`). -/
def StringHasher.validate (cfg : StringHasher) (kdf : Kdf)
    (value hash : String) : Except String Bool :=
  if value.length = 0 ∨ hash.length ≠ cfg.hashLength then .ok false
  else if cfg.signature ≠ jsSubstring hash 0 cfg.signature.length then .ok false
  else
    let hashStr := jsSubstring hash cfg.signature.length (cfg.hashLength - cfg.saltLength)
    let saltStr := jsSubstringFrom hash (cfg.signature.length + cfg.buffLength)
    let saltBuff := hexToBytes saltStr
    let hashBuff := hexToBytes hashStr
    match cfg.generateHash kdf value saltBuff with
    | some testBuff => timingSafeEqual hashBuff testBuff
    | none => .error "Unable to generate hash."

/-- A stand-in for `pbkdf2Sync` used in concrete witnesses: a deterministic
function returning the requested number of zero bytes. -/
def constKdf : Kdf := fun _ _ _ _ n => List.replicate n 0

/-- A concrete 16-byte salt for witnesses (`saltLength / 2 = 16` bytes under
the default configuration). -/
def sampleSalt : List ℕ := List.replicate 16 0

/-- A second, distinct concrete 16-byte salt. -/
def sampleSalt2 : List ℕ := List.replicate 16 1

/-- The hash `generate` produces under the default configuration with
`constKdf` and `sampleSalt`. -/
def sampleHash : String := "sha512" ++ bytesToHex (List.replicate 45 0 ++ sampleSalt)

/-- The hash `generate` produces under the default configuration with
`constKdf` and `sampleSalt2`. -/
def sampleHash2 : String := "sha512" ++ bytesToHex (List.replicate 45 0 ++ sampleSalt2)

/-! ### Helper lemmas: hex codec -/

theorem hexVal_hexDigitChar : ∀ n < 16, hexVal (hexDigitChar n) = some n := by
  decide

theorem bytesToHexList_append (a b : List ℕ) :
    bytesToHexList (a ++ b) = bytesToHexList a ++ bytesToHexList b := by
  induction a with
  | nil => rfl
  | cons x xs ih => simp [bytesToHexList, ih]

theorem bytesToHexList_length (bs : List ℕ) :
    (bytesToHexList bs).length = 2 * bs.length := by
  induction bs with
  | nil => rfl
  | cons x xs ih =>
    simp [bytesToHexList, byteToHex, ih]
    omega

theorem hexToBytesList_bytesToHexList (bs : List ℕ) (hb : ∀ b ∈ bs, b < 256) :
    hexToBytesList (bytesToHexList bs) = bs := by
  induction bs with
  | nil => rfl
  | cons x xs ih =>
    have hx : x < 256 := hb x (by simp)
    have hv1 := hexVal_hexDigitChar (x / 16 % 16) (by omega)
    have hv2 := hexVal_hexDigitChar (x % 16) (by omega)
    have htl : hexToBytesList (bytesToHexList (x :: xs)) =
        (16 * (x / 16 % 16) + x % 16) :: hexToBytesList (bytesToHexList xs) := by
      simp [bytesToHexList, byteToHex, hexToBytesList, hv1, hv2]
    rw [htl, ih (fun b hbm => hb b (List.mem_cons_of_mem x hbm))]
    congr 1
    omega

theorem isLowerHexDigit_bytesToHexList (bs : List ℕ) :
    ∀ c ∈ bytesToHexList bs, isLowerHexDigit c := by
  have hd : ∀ n < 16, isLowerHexDigit (hexDigitChar n) := by decide
  induction bs with
  | nil => simp [bytesToHexList]
  | cons x xs ih =>
    intro c hc
    simp only [bytesToHexList, byteToHex, List.cons_append, List.nil_append,
      List.mem_cons] at hc
    rcases hc with h | h | h
    · exact h ▸ hd _ (by omega)
    · exact h ▸ hd _ (by omega)
    · exact ih c h

/-! ### Helper lemmas: JavaScript substring extraction -/

theorem jsSubstring_extract (L M R : List Char) :
    jsSubstring (String.mk (L ++ M ++ R)) L.length (L.length + M.length) =
      String.mk M := by
  simp only [jsSubstring]
  have hlen : (String.mk (L ++ M ++ R)).length = L.length + M.length + R.length := by
    simp [String.length]
    omega
  have htl : (String.mk (L ++ M ++ R)).toList = L ++ M ++ R := rfl
  rw [hlen, htl]
  rw [min_eq_left (by omega : L.length ≤ L.length + M.length + R.length)]
  rw [min_eq_left (by omega : L.length + M.length ≤ L.length + M.length + R.length)]
  rw [min_eq_left (by omega : L.length ≤ L.length + M.length)]
  rw [max_eq_right (by omega : L.length ≤ L.length + M.length)]
  congr 1
  rw [List.append_assoc, List.drop_left]
  rw [(by omega : L.length + M.length - L.length = M.length), List.take_left]

/-! ### Helper lemmas: the validated configuration -/

/-- Everything a successful construction guarantees about the resulting
fields: the five validated invariants, the `buffLength` identity, and the
positivity of `buffLength` they imply. -/
theorem mk_ok_facts (opts : Option StringHashOptions) (cfg : StringHasher)
    (hc : mkStringHasher opts = .ok cfg) :
    0 < cfg.saltLength ∧ 0 < cfg.hashLength ∧ 1000 ≤ cfg.iterations ∧
    2 * cfg.saltLength ≤ cfg.hashLength ∧
    3 * (cfg.saltLength + cfg.signature.length) ≤ 2 * cfg.hashLength ∧
    cfg.signature.length + cfg.buffLength + cfg.saltLength = cfg.hashLength ∧
    0 < cfg.buffLength := by
  match opts with
  | none =>
    rw [mkStringHasher, Except.ok.injEq] at hc
    subst hc
    decide
  | some o =>
    rw [mkStringHasher] at hc
    set s := effSaltLength o with hs
    set hl := effHashLength o with hhl
    set it := effIterations o with hit
    set sg := effSignature o with hsg
    split at hc
    · exact absurd hc (by simp)
    split at hc
    · exact absurd hc (by simp)
    split at hc
    · exact absurd hc (by simp)
    split at hc
    · exact absurd hc (by simp)
    split at hc
    · exact absurd hc (by simp)
    rename_i h1 h2 h3 h4 h5
    rw [Except.ok.injEq] at hc
    subst hc
    have h4i : s * 2 ≤ hl := by
      rw [not_lt, le_div_iff₀ (by norm_num : (0:ℚ) < 2)] at h4
      exact_mod_cast h4
    have h5i : 3 * (s + (sg.length : ℤ)) ≤ 2 * hl := by
      rw [not_lt] at h5
      have q : 3 * ((s : ℚ) + (sg.length : ℚ)) ≤ 2 * (hl : ℚ) := by linarith
      exact_mod_cast q
    simp only [not_le, not_lt] at h1 h2 h3
    dsimp only
    refine ⟨by omega, by omega, by omega, by omega, by omega, by omega, by omega⟩

/-- A string whose character data is known is `String.mk` of that data. -/
theorem string_eq_mk {s : String} {l : List Char} (h : s.data = l) :
    s = String.mk l := by
  rw [← h]

/-- Specialisation of `jsSubstring_extract`: the prefix of an append. -/
theorem jsSubstring_prefix (M R : List Char) :
    jsSubstring (String.mk (M ++ R)) 0 M.length = String.mk M := by
  simpa using jsSubstring_extract [] M R

/-- Specialisation of `jsSubstring_extract`: one-argument `substring` from a
split point to the end. -/
theorem jsSubstringFrom_suffix (L S : List Char) :
    jsSubstringFrom (String.mk (L ++ S)) L.length = String.mk S := by
  have h := jsSubstring_extract L S []
  rw [List.append_nil] at h
  rw [jsSubstringFrom]
  have hl : (String.mk (L ++ S)).length = L.length + S.length := by
    simp [String.length]
  rw [hl]
  exact h

/-! ### Helper lemmas: generate and the generate/validate round trip -/

/-- What a successful `generate` run consists of: both byte counts were
integers (even character counts) and the output is
`signature ++ hex(derived ++ salt)`. -/
theorem generate_some (cfg : StringHasher) (kdf : Kdf) (salt : List ℕ)
    (value h : String) (hg : cfg.generate kdf salt value = some h) :
    cfg.saltLength % 2 = 0 ∧ cfg.buffLength % 2 = 0 ∧
    h = cfg.signature ++
      bytesToHex (kdf value salt cfg.iterations cfg.algorythm (cfg.buffLength / 2) ++ salt) := by
  rw [StringHasher.generate, StringHasher.generateHash] at hg
  split at hg
  · rename_i hse
    split at hg
    · rename_i heq
      split at heq
      · rename_i hbe
        rw [Option.some.injEq] at heq hg
        exact ⟨hse, hbe, by rw [← hg, ← heq]⟩
      · exact absurd heq (by simp)
    · exact absurd hg (by simp)
  · exact absurd hg (by simp)

/-- The generate/validate round trip: any hash actually produced by
`generate` (same config, same KDF, salt of the contracted length) validates
against the non-empty value it was produced from. -/
theorem validate_generate_roundtrip (opts : Option StringHashOptions)
    (cfg : StringHasher) (kdf : Kdf) (salt : List ℕ) (value h : String)
    (hc : mkStringHasher opts = .ok cfg)
    (hk : GoodKdf kdf)
    (hsl : 2 * salt.length = cfg.saltLength)
    (hsb : ∀ b ∈ salt, b < 256)
    (hv : value.length ≠ 0)
    (hg : cfg.generate kdf salt value = some h) :
    cfg.validate kdf value h = .ok true := by
  obtain ⟨hspos, hhpos, -, hshalf, -, hsum, hbpos⟩ := mk_ok_facts opts cfg hc
  obtain ⟨hse, hbe, hh⟩ := generate_some cfg kdf salt value h hg
  set d := kdf value salt cfg.iterations cfg.algorythm (cfg.buffLength / 2) with hd
  have hdlen : d.length = cfg.buffLength / 2 := (hk value salt _ _ _).1
  have hdb : ∀ b ∈ d, b < 256 := (hk value salt _ _ _).2
  have hD : (bytesToHexList d).length = cfg.buffLength := by
    rw [bytesToHexList_length, hdlen]; omega
  have hS : (bytesToHexList salt).length = cfg.saltLength := by
    rw [bytesToHexList_length]; omega
  have hdata : h.data =
      (cfg.signature.data ++ bytesToHexList d) ++ bytesToHexList salt := by
    rw [hh]
    simp only [String.data_append, bytesToHex]
    rw [bytesToHexList_append]
    simp [List.append_assoc]
  have hlen : h.length = cfg.hashLength := by
    show h.data.length = _
    rw [hdata]
    simp only [List.length_append, hD, hS]
    have : cfg.signature.data.length = cfg.signature.length := rfl
    omega
  have hmkh : h = String.mk
      ((cfg.signature.data ++ bytesToHexList d) ++ bytesToHexList salt) :=
    string_eq_mk hdata
  have hps : jsSubstring h 0 cfg.signature.length = cfg.signature := by
    rw [hmkh, List.append_assoc]
    exact jsSubstring_prefix cfg.signature.data
      (bytesToHexList d ++ bytesToHexList salt)
  have hmid : jsSubstring h cfg.signature.length (cfg.hashLength - cfg.saltLength) =
      String.mk (bytesToHexList d) := by
    have hstop : cfg.hashLength - cfg.saltLength =
        cfg.signature.length + cfg.buffLength := by omega
    have hext := jsSubstring_extract cfg.signature.data (bytesToHexList d)
      (bytesToHexList salt)
    rw [hD] at hext
    rw [hmkh, hstop]
    exact hext
  have hsuf : jsSubstringFrom h (cfg.signature.length + cfg.buffLength) =
      String.mk (bytesToHexList salt) := by
    have hext := jsSubstringFrom_suffix
      (cfg.signature.data ++ bytesToHexList d) (bytesToHexList salt)
    rw [List.length_append, hD] at hext
    rw [hmkh]
    exact hext
  have hsalt : hexToBytes (String.mk (bytesToHexList salt)) = salt := by
    rw [hexToBytes]
    exact hexToBytesList_bytesToHexList salt hsb
  have hhash : hexToBytes (String.mk (bytesToHexList d)) = d := by
    rw [hexToBytes]
    exact hexToBytesList_bytesToHexList d hdb
  have hgh : cfg.generateHash kdf value salt = some d := by
    rw [StringHasher.generateHash, if_pos hbe]
  simp only [StringHasher.validate]
  rw [if_neg (by simp [hlen, hv])]
  rw [if_neg (by simp [hps])]
  rw [hmid, hsuf, hsalt, hhash, hgh]
  show timingSafeEqual d d = .ok true
  rw [timingSafeEqual, if_pos rfl]
  simp

/-- `constKdf` satisfies the KDF contract. -/
theorem goodKdf_constKdf : GoodKdf constKdf := by
  intro v s i a n
  refine ⟨by simp [constKdf], ?_⟩
  intro b hb
  simp [constKdf, List.eq_of_mem_replicate hb]

/-- Hex rendering distributes over buffer concatenation
(`Buffer.concat([x, y]).toString("hex")`). -/
theorem bytesToHex_append (a b : List ℕ) :
    bytesToHex (a ++ b) = bytesToHex a ++ bytesToHex b := by
  have h : (bytesToHex a ++ bytesToHex b).data = bytesToHexList (a ++ b) := by
    rw [String.data_append, bytesToHexList_append]; rfl
  exact (string_eq_mk h).symm

/-- The character data of any string `generate` returns. -/
theorem generate_data (cfg : StringHasher) (kdf : Kdf) (salt : List ℕ)
    (value h : String) (hg : cfg.generate kdf salt value = some h) :
    h.data = (cfg.signature.data ++
        bytesToHexList (kdf value salt cfg.iterations cfg.algorythm (cfg.buffLength / 2))) ++
      bytesToHexList salt := by
  obtain ⟨-, -, hh⟩ := generate_some cfg kdf salt value h hg
  rw [hh]
  simp only [String.data_append, bytesToHex]
  rw [bytesToHexList_append]
  simp [List.append_assoc]

/-- Constructions from options with identical effective field values agree. -/
theorem mk_some_congr (o1 o2 : StringHashOptions)
    (h1 : effSignature o1 = effSignature o2)
    (h2 : effAlgorythm o1 = effAlgorythm o2)
    (h3 : effSaltLength o1 = effSaltLength o2)
    (h4 : effHashLength o1 = effHashLength o2)
    (h5 : effIterations o1 = effIterations o2) :
    mkStringHasher (some o1) = mkStringHasher (some o2) := by
  simp only [mkStringHasher, h1, h2, h3, h4, h5]

/-! ### The claims -/

/-- C1: for every successfully constructed `StringHasher` and every
non-empty string `value`, `validate(value, generate(value))` returns `true`
(the KDF is a deterministic function of password, salt, iteration count,
algorithm and output length; the salt is the byte list the random source
returned, of the requested `saltLength / 2` length). -/
theorem claim_C1_validate_of_generate (opts : Option StringHashOptions)
    (cfg : StringHasher) (kdf : Kdf) (salt : List ℕ) (value h : String)
    (hc : mkStringHasher opts = .ok cfg) (hk : GoodKdf kdf)
    (hsl : 2 * salt.length = cfg.saltLength) (hsb : ∀ b ∈ salt, b < 256)
    (hv : value ≠ "") (hg : cfg.generate kdf salt value = some h) :
    cfg.validate kdf value h = .ok true :=
  validate_generate_roundtrip opts cfg kdf salt value h hc hk hsl hsb
    (fun hl => hv (string_eq_mk (List.length_eq_zero.mp hl))) hg

/-- Witness for C1 at the default configuration. -/
theorem claim_C1_witness :
    defaultHasher.validate constKdf "a" sampleHash = .ok true :=
  claim_C1_validate_of_generate none defaultHasher constKdf sampleSalt "a"
    sampleHash rfl goodKdf_constKdf (by decide) (by decide) (by decide) rfl

/-- C5: for every successfully constructed `StringHasher`, `validate`
returns `false` — for every KDF, hence without invoking it, and without
throwing — whenever the value is empty, the hash length differs from
`hashLength`, or the leading `len(signature)` characters of the hash differ
from the signature. -/
theorem claim_C5_fast_reject (opts : Option StringHashOptions)
    (cfg : StringHasher) (value hash : String)
    (_hc : mkStringHasher opts = .ok cfg)
    (hcond : value.length = 0 ∨ hash.length ≠ cfg.hashLength ∨
      jsSubstring hash 0 cfg.signature.length ≠ cfg.signature) :
    ∀ kdf, cfg.validate kdf value hash = .ok false := by
  intro kdf
  simp only [StringHasher.validate]
  rcases hcond with h1 | h2 | h3
  · rw [if_pos (Or.inl h1)]
  · rw [if_pos (Or.inr h2)]
  · by_cases hfast : value.length = 0 ∨ hash.length ≠ cfg.hashLength
    · rw [if_pos hfast]
    · rw [if_neg hfast, if_pos (Ne.symm h3)]

/-- Witness for C5: the empty value is rejected. -/
theorem claim_C5_witness :
    defaultHasher.validate constKdf "" "x" = .ok false :=
  claim_C5_fast_reject none defaultHasher "" "x" rfl (Or.inl rfl) constKdf

/-- C6: every string `generate` returns is the signature, the derived bytes
as lower-case hex and the salt bytes as lower-case hex, concatenated with no
separators, and its total length is exactly `hashLength` characters. -/
theorem claim_C6_generate_format (opts : Option StringHashOptions)
    (cfg : StringHasher) (kdf : Kdf) (salt : List ℕ) (value h : String)
    (hc : mkStringHasher opts = .ok cfg) (hk : GoodKdf kdf)
    (hsl : 2 * salt.length = cfg.saltLength)
    (hg : cfg.generate kdf salt value = some h) :
    h = cfg.signature ++
        bytesToHex (kdf value salt cfg.iterations cfg.algorythm (cfg.buffLength / 2)) ++
        bytesToHex salt ∧
    h.length = cfg.hashLength ∧
    ∀ c ∈ (bytesToHex (kdf value salt cfg.iterations cfg.algorythm (cfg.buffLength / 2) ++
        salt)).toList, isLowerHexDigit c := by
  obtain ⟨-, -, -, -, -, hsum, -⟩ := mk_ok_facts opts cfg hc
  obtain ⟨hse, hbe, hh⟩ := generate_some cfg kdf salt value h hg
  set d := kdf value salt cfg.iterations cfg.algorythm (cfg.buffLength / 2) with hd
  have hdlen : d.length = cfg.buffLength / 2 := (hk value salt _ _ _).1
  refine ⟨?_, ?_, ?_⟩
  · rw [hh, bytesToHex_append, ← String.append_assoc]
  · show h.data.length = _
    rw [generate_data cfg kdf salt value h hg, ← hd]
    simp only [List.length_append, bytesToHexList_length]
    have hsig : cfg.signature.data.length = cfg.signature.length := rfl
    omega
  · intro c hcm
    exact isLowerHexDigit_bytesToHexList (d ++ salt) c hcm

/-- Witness for C6 at the default configuration. -/
theorem claim_C6_witness :
    sampleHash = defaultHasher.signature ++
        bytesToHex (constKdf "a" sampleSalt defaultHasher.iterations
          defaultHasher.algorythm (defaultHasher.buffLength / 2)) ++
        bytesToHex sampleSalt ∧
    sampleHash.length = defaultHasher.hashLength ∧
    ∀ c ∈ (bytesToHex (constKdf "a" sampleSalt defaultHasher.iterations
        defaultHasher.algorythm (defaultHasher.buffLength / 2) ++
        sampleSalt)).toList, isLowerHexDigit c :=
  claim_C6_generate_format none defaultHasher constKdf sampleSalt "a"
    sampleHash rfl goodKdf_constKdf (by decide) rfl

/-- C7: when construction fails, the single reported error is the one of the
first violated invariant, in the fixed order salt length > 0,
hash length > 0, iterations ≥ 1000, salt ≤ half of hash,
salt + signature ≤ two thirds of hash (each conjunct: all earlier checks
pass and this one fails, so exactly this error is reported). -/
theorem claim_C7_error_priority (o : StringHashOptions) :
    (effSaltLength o ≤ 0 →
      mkStringHasher (some o) = .error "Salt length cannot be less than or equals zero.") ∧
    (0 < effSaltLength o → effHashLength o ≤ 0 →
      mkStringHasher (some o) = .error "Hash length cannot be less than or equals zero.") ∧
    (0 < effSaltLength o → 0 < effHashLength o → effIterations o < 1000 →
      mkStringHasher (some o) = .error "Iterations count cannot be less than 1000.") ∧
    (0 < effSaltLength o → 0 < effHashLength o → 1000 ≤ effIterations o →
      (effHashLength o : ℚ) / 2 < (effSaltLength o : ℚ) →
      mkStringHasher (some o) = .error "Salt length cannot be less than half of hash length.") ∧
    (0 < effSaltLength o → 0 < effHashLength o → 1000 ≤ effIterations o →
      ¬ ((effHashLength o : ℚ) / 2 < (effSaltLength o : ℚ)) →
      (effHashLength o : ℚ) / 3 * 2 < (effSaltLength o : ℚ) + ((effSignature o).length : ℚ) →
      mkStringHasher (some o) =
        .error "Salt length combined with signature length cannot be more than 2/3 of hash length.") := by
  refine ⟨?_, ?_, ?_, ?_, ?_⟩
  · intro h1
    simp only [mkStringHasher]
    rw [if_pos h1]
  · intro h1 h2
    simp only [mkStringHasher]
    rw [if_neg (not_le.mpr h1), if_pos h2]
  · intro h1 h2 h3
    simp only [mkStringHasher]
    rw [if_neg (not_le.mpr h1), if_neg (not_le.mpr h2), if_pos h3]
  · intro h1 h2 h3 h4
    simp only [mkStringHasher]
    rw [if_neg (not_le.mpr h1), if_neg (not_le.mpr h2), if_neg (not_lt.mpr h3),
      if_pos h4]
  · intro h1 h2 h3 h4 h5
    simp only [mkStringHasher]
    rw [if_neg (not_le.mpr h1), if_neg (not_le.mpr h2), if_neg (not_lt.mpr h3),
      if_neg h4, if_pos h5]

/-- Witness for C7: options violating both the salt-length and the
iterations invariant report the salt-length error. -/
theorem claim_C7_witness :
    mkStringHasher (some { saltLength := some (-5), iterations := some 5 }) =
      .error "Salt length cannot be less than or equals zero." :=
  (claim_C7_error_priority { saltLength := some (-5), iterations := some 5 }).1
    (by decide)

/-- C8: for every successfully constructed `StringHasher` (including the
option-less construction), `buffLength` equals
`hashLength - saltLength - signature.length` and is strictly positive. -/
theorem claim_C8_buffLength (opts : Option StringHashOptions)
    (cfg : StringHasher) (hc : mkStringHasher opts = .ok cfg) :
    (cfg.buffLength : ℤ) =
      (cfg.hashLength : ℤ) - (cfg.saltLength : ℤ) - (cfg.signature.length : ℤ) ∧
    0 < cfg.buffLength := by
  obtain ⟨-, -, -, -, -, hsum, hbpos⟩ := mk_ok_facts opts cfg hc
  exact ⟨by omega, hbpos⟩

/-- Witness for C8 at the option-less construction. -/
theorem claim_C8_witness :
    (defaultHasher.buffLength : ℤ) =
      (defaultHasher.hashLength : ℤ) - (defaultHasher.saltLength : ℤ) -
        (defaultHasher.signature.length : ℤ) ∧
    0 < defaultHasher.buffLength :=
  claim_C8_buffLength none defaultHasher rfl

/-- C9: two `generate` runs on the same value and config with distinct salts
from the random source produce different output strings, and both outputs
validate against the value. -/
theorem claim_C9_distinct_salts (opts : Option StringHashOptions)
    (cfg : StringHasher) (kdf : Kdf) (salt1 salt2 : List ℕ)
    (value h1 h2 : String)
    (hc : mkStringHasher opts = .ok cfg) (hk : GoodKdf kdf)
    (hs1 : 2 * salt1.length = cfg.saltLength) (hb1 : ∀ b ∈ salt1, b < 256)
    (hs2 : 2 * salt2.length = cfg.saltLength) (hb2 : ∀ b ∈ salt2, b < 256)
    (hne : salt1 ≠ salt2) (hv : value.length ≠ 0)
    (hg1 : cfg.generate kdf salt1 value = some h1)
    (hg2 : cfg.generate kdf salt2 value = some h2) :
    h1 ≠ h2 ∧ cfg.validate kdf value h1 = .ok true ∧
      cfg.validate kdf value h2 = .ok true := by
  refine ⟨?_,
    validate_generate_roundtrip opts cfg kdf salt1 value h1 hc hk hs1 hb1 hv hg1,
    validate_generate_roundtrip opts cfg kdf salt2 value h2 hc hk hs2 hb2 hv hg2⟩
  intro heq
  apply hne
  have hd1 := generate_data cfg kdf salt1 value h1 hg1
  have hd2 := generate_data cfg kdf salt2 value h2 hg2
  have hdl1 : (kdf value salt1 cfg.iterations cfg.algorythm (cfg.buffLength / 2)).length =
      cfg.buffLength / 2 := (hk value salt1 _ _ _).1
  have hdl2 : (kdf value salt2 cfg.iterations cfg.algorythm (cfg.buffLength / 2)).length =
      cfg.buffLength / 2 := (hk value salt2 _ _ _).1
  have happ : (cfg.signature.data ++
        bytesToHexList (kdf value salt1 cfg.iterations cfg.algorythm (cfg.buffLength / 2))) ++
      bytesToHexList salt1 =
      (cfg.signature.data ++
        bytesToHexList (kdf value salt2 cfg.iterations cfg.algorythm (cfg.buffLength / 2))) ++
      bytesToHexList salt2 := by
    rw [← hd1, ← hd2, heq]
  have hlen : (cfg.signature.data ++
      bytesToHexList (kdf value salt1 cfg.iterations cfg.algorythm (cfg.buffLength / 2))).length =
      (cfg.signature.data ++
      bytesToHexList (kdf value salt2 cfg.iterations cfg.algorythm (cfg.buffLength / 2))).length := by
    simp only [List.length_append, bytesToHexList_length, hdl1, hdl2]
  obtain ⟨-, hS⟩ := List.append_inj happ hlen
  have := congrArg hexToBytesList hS
  rwa [hexToBytesList_bytesToHexList salt1 hb1,
    hexToBytesList_bytesToHexList salt2 hb2] at this

/-- Witness for C9 at the default configuration with two distinct salts. -/
theorem claim_C9_witness :
    sampleHash ≠ sampleHash2 ∧
    defaultHasher.validate constKdf "a" sampleHash = .ok true ∧
    defaultHasher.validate constKdf "a" sampleHash2 = .ok true :=
  claim_C9_distinct_salts none defaultHasher constKdf sampleSalt sampleSalt2
    "a" sampleHash sampleHash2 rfl goodKdf_constKdf (by decide) (by decide)
    (by decide) (by decide) (by decide) (by decide) rfl rfl

/-- C10: a supplied falsy option field (0 for the numbers, `""` for the
signature) is treated exactly as an absent field: the default is retained
and the supplied value never reaches validation; in particular
`new StringHasher({saltLength: 0, iterations: 0})` constructs successfully
with `saltLength` 32 and `iterations` 100000. -/
theorem claim_C10_falsy_is_absent :
    (∀ o : StringHashOptions,
      mkStringHasher (some { o with signature := some "" }) =
        mkStringHasher (some { o with signature := none })) ∧
    (∀ o : StringHashOptions,
      mkStringHasher (some { o with saltLength := some 0 }) =
        mkStringHasher (some { o with saltLength := none })) ∧
    (∀ o : StringHashOptions,
      mkStringHasher (some { o with hashLength := some 0 }) =
        mkStringHasher (some { o with hashLength := none })) ∧
    (∀ o : StringHashOptions,
      mkStringHasher (some { o with iterations := some 0 }) =
        mkStringHasher (some { o with iterations := none })) ∧
    mkStringHasher (some { saltLength := some 0, iterations := some 0 }) =
      .ok { signature := "sha512", algorythm := "sha512", saltLength := 32,
            hashLength := 128, buffLength := 90, iterations := 100000 } := by
  refine ⟨?_, ?_, ?_, ?_, ?_⟩
  · intro o
    exact mk_some_congr _ _ (by simp [effSignature]) rfl rfl rfl rfl
  · intro o
    exact mk_some_congr _ _ rfl rfl (by simp [effSaltLength]) rfl rfl
  · intro o
    exact mk_some_congr _ _ rfl rfl rfl (by simp [effHashLength]) rfl
  · intro o
    exact mk_some_congr _ _ rfl rfl rfl rfl (by simp [effIterations])
  · norm_num [mkStringHasher, effSignature, effAlgorythm, effSaltLength,
      effHashLength, effIterations, defaultHasher,
      show ("sha512" : String).length = 6 from rfl]
    decide

/-! ### Evaluations at the failing inputs of the code-bug claims -/

/-- C2 (evaluation): a well-formed-length hash whose derived segment is not
hex makes the decoded expected buffer shorter than the derived candidate,
and `validate` then propagates the `timingSafeEqual` length error instead of
returning `false`. -/
theorem claim_C2_eval :
    defaultHasher.validate constKdf "a"
        ("sha512" ++ String.mk (List.replicate 122 'z')) =
      .error "Input buffers must have the same byte length" := by
  decide

/-- C3 (evaluation): the option-less construction succeeds with signature
`"sha512"` (the class initializer), not the empty string the documentation
states; the other defaults match. -/
theorem claim_C3_eval :
    mkStringHasher none = .ok defaultHasher ∧
    defaultHasher.signature = "sha512" ∧ defaultHasher.signature ≠ "" ∧
    defaultHasher.algorythm = "sha512" ∧ defaultHasher.saltLength = 32 ∧
    defaultHasher.hashLength = 128 ∧ defaultHasher.iterations = 100000 :=
  ⟨rfl, rfl, by decide, rfl, rfl, rfl, rfl⟩

/-- C4 (evaluation): `{saltLength: 0}` does not throw — the falsy guard
keeps the default 32 and construction succeeds — while a negative
`saltLength` does reach the salt-length check. -/
theorem claim_C4_eval :
    mkStringHasher (some { saltLength := some 0 }) = .ok defaultHasher ∧
    mkStringHasher (some { saltLength := some (-1) }) =
      .error "Salt length cannot be less than or equals zero." := by
  constructor
  · norm_num [mkStringHasher, effSignature, effAlgorythm, effSaltLength,
      effHashLength, effIterations, defaultHasher,
      show ("sha512" : String).length = 6 from rfl]
    decide
  · norm_num [mkStringHasher, effSignature, effAlgorythm, effSaltLength,
      effHashLength, effIterations, defaultHasher]

end StringHash
